import Mathlib

/-!
Shallow embedding of the hierarchical IP rate limiter in
`crates/utils/src/rate_limit/rate_limiter.rs` and the IP-extraction helpers in
`crates/utils/src/rate_limit/mod.rs`.

Machine integers are modelled as `Nat`/`Int` with explicit two's-complement
wrapping (`wrap32`) where Rust release-mode arithmetic wraps, truncated
`Nat` subtraction where Rust uses `saturating_sub`, and explicit clamping
(`i32Clamp`) where Rust uses `saturating_mul`.  Rust `i64` division truncates
toward zero, which is `Int.tdiv` (for the `u32`/`i32` input ranges the `i64`
intermediate product can never overflow, so the product itself is exact).
Rust panics on division by zero; the model returns `Int.tdiv x 0 = 0` instead,
and every theorem that depends on a division assumes `secs_to_refill > 0`.
`HashMap` is modelled as an association list: `lookup` finds the first binding,
`mapInsert` replaces the binding in place or appends a fresh one, `retain` is
`List.filter`/`List.filterMap` (`shrink_to_fit` has no observable effect).
-/

/-- Two's-complement truncation of an integer to 32 bits: the effect of
Rust's `as i32` cast and of release-mode wrapping `i32` arithmetic. -/
def wrap32 (x : Int) : Int :=
  (x + 2147483648) % 4294967296 - 2147483648

/-- Clamp an integer into the `i32` range: the effect of `i32::saturating_mul`
applied to an exact product. -/
def i32Clamp (x : Int) : Int :=
  min (max x (-2147483648)) 2147483647

/-- `InstantSecs` (rate_limiter.rs:16): seconds since process start, a `u32`.
The `u32` range is an invariant of how values are produced, not of the type. -/
structure InstantSecs where
  secs : Nat
deriving DecidableEq

/-- `Bucket` (rate_limiter.rs:30): token count (`i32`) at `last_checked`. -/
structure Bucket where
  last_checked : InstantSecs
  tokens : Int
deriving DecidableEq

/-- `BucketConfig` (rate_limiter.rs:62): both fields are `i32` in the source. -/
structure BucketConfig where
  capacity : Int
  secs_to_refill : Int
deriving DecidableEq

/-- `Bucket::update` (rate_limiter.rs:39-58).
`secs_since_last_checked` is `u32::saturating_sub`, i.e. truncated `Nat`
subtraction; `added_tokens` is computed in `i64` (exact here) with
truncating division; `added_tokens as i32` and the `i32` addition wrap. -/
def Bucket.update (self : Bucket) (now : InstantSecs) (config : BucketConfig) : Bucket :=
  let secs_since_last_checked : Nat := now.secs - self.last_checked.secs
  let added_tokens : Int :=
    Int.tdiv ((secs_since_last_checked : Int) * config.capacity) config.secs_to_refill
  let unbounded_tokens : Int := wrap32 (self.tokens + wrap32 added_tokens)
  let tokens : Int := min unbounded_tokens config.capacity
  { last_checked := now, tokens := tokens }

/-- `BucketConfig::multiply_capacity` (rate_limiter.rs:68-73):
`capacity.saturating_mul(rhs)`, `secs_to_refill` untouched. -/
def BucketConfig.multiply_capacity (self : BucketConfig) (rhs : Int) : BucketConfig :=
  { self with capacity := i32Clamp (self.capacity * rhs) }

/-- `ActionType` (rate_limiter.rs:76-84): the enumeration as declared in the
source, with its six variants. -/
inductive ActionType where
  | Message
  | Register
  | Post
  | Image
  | Comment
  | Search
deriving DecidableEq, Fintype

/-- The variants of `ActionType`, in declaration order (the iteration order of
`enum_map::EnumMap`). -/
def ActionType.all : List ActionType :=
  [.Message, .Register, .Post, .Image, .Comment, .Search]

/-- `enum_map::EnumMap<ActionType, α>`: a fixed-size mapping with exactly one
slot per `ActionType` variant. -/
structure EnumMap (α : Type) where
  message : α
  register : α
  post : α
  image : α
  comment : α
  search : α
deriving DecidableEq

/-- Indexing `EnumMap<ActionType, α>` by an `ActionType`. -/
def EnumMap.get (m : EnumMap α) : ActionType → α
  | .Message => m.message
  | .Register => m.register
  | .Post => m.post
  | .Image => m.image
  | .Comment => m.comment
  | .Search => m.search

/-- Writing one slot of an `EnumMap` (the effect of `map[action] = v`). -/
def EnumMap.set (m : EnumMap α) : ActionType → α → EnumMap α
  | .Message, v => { m with message := v }
  | .Register, v => { m with register := v }
  | .Post, v => { m with post := v }
  | .Image, v => { m with image := v }
  | .Comment, v => { m with comment := v }
  | .Search, v => { m with search := v }

/-- `EnumMap::map` with a key-independent closure (the only use in the source). -/
def EnumMap.map (f : α → β) (m : EnumMap α) : EnumMap β :=
  ⟨f m.message, f m.register, f m.post, f m.image, f m.comment, f m.search⟩

/-- An `EnumMap` with the same value in every slot (the `enum_map!` literal with
a `_` arm used by the source's test). -/
def EnumMap.const (v : α) : EnumMap α :=
  ⟨v, v, v, v, v, v⟩

/-- `RateLimitedGroup<C>` (rate_limiter.rs:87-90). -/
structure RateLimitedGroup (C : Type) where
  total : EnumMap Bucket
  children : C
deriving DecidableEq

/-- `RateLimitedGroup::new` (rate_limiter.rs:94-103): fresh buckets at the
configured (unscaled) capacity, timestamped `now`; `dflt` is the
`Default::default()` children value (`()` or the empty map). -/
def RateLimitedGroup.new (now : InstantSecs) (configs : EnumMap BucketConfig)
    (dflt : C) : RateLimitedGroup C :=
  { total := configs.map (fun config => { last_checked := now, tokens := config.capacity })
    children := dflt }

/-- `RateLimitedGroup::check_total` (rate_limiter.rs:105-129).  The `&mut self`
mutation is returned as the second component.  `tokens -= 1` is wrapping `i32`
arithmetic in release mode, hence the `wrap32`. -/
def RateLimitedGroup.check_total (self : RateLimitedGroup C) (action_type : ActionType)
    (now : InstantSecs) (config : BucketConfig) : Bool × RateLimitedGroup C :=
  let bucket := self.total.get action_type
  let new_bucket := bucket.update now config
  if new_bucket.tokens = 0 then
    (false, self)
  else
    (true, { self with
      total := self.total.set action_type
        { new_bucket with tokens := wrap32 (new_bucket.tokens - 1) } })

/-- First-match lookup in an association list (model of `HashMap` lookup). -/
def mapLookup [DecidableEq K] : List (K × V) → K → Option V
  | [], _ => none
  | (k, v) :: rest, k0 => if k = k0 then some v else mapLookup rest k0

/-- Replace the binding for `k` (or append one): the combined effect of
`HashMap::entry(k).or_insert(..)` followed by mutating the entry in place. -/
def mapInsert [DecidableEq K] : List (K × V) → K → V → List (K × V)
  | [], k, v => [(k, v)]
  | (k1, v1) :: rest, k, v =>
    if k1 = k then (k, v) :: rest else (k1, v1) :: mapInsert rest k v

/-- `Ipv4Addr`: four octets. -/
structure Ipv4Addr where
  a : Nat
  b : Nat
  c : Nat
  d : Nat
deriving DecidableEq

/-- `Ipv6Addr`: eight 16-bit segments, as in `Ipv6Addr::new`. -/
structure Ipv6Addr where
  s0 : Nat
  s1 : Nat
  s2 : Nat
  s3 : Nat
  s4 : Nat
  s5 : Nat
  s6 : Nat
  s7 : Nat
deriving DecidableEq

/-- `Ipv6Addr::octets`: the sixteen bytes, big-endian per segment. -/
def Ipv6Addr.octets (ip : Ipv6Addr) : List Nat :=
  [ip.s0 / 256, ip.s0 % 256, ip.s1 / 256, ip.s1 % 256,
   ip.s2 / 256, ip.s2 % 256, ip.s3 / 256, ip.s3 % 256,
   ip.s4 / 256, ip.s4 % 256, ip.s5 / 256, ip.s5 % 256,
   ip.s6 / 256, ip.s6 % 256, ip.s7 / 256, ip.s7 % 256]

/-- `IpAddr`. -/
inductive IpAddr where
  | V4 (addr : Ipv4Addr)
  | V6 (addr : Ipv6Addr)
deriving DecidableEq

/-- `split_ipv6` (rate_limiter.rs:251-254): first six octets, seventh, eighth. -/
def split_ipv6 (ip : Ipv6Addr) : List Nat × Nat × Nat :=
  match ip.octets with
  | a0 :: a1 :: a2 :: a3 :: a4 :: a5 :: b :: c :: _ => ([a0, a1, a2, a3, a4, a5], b, c)
  | _ => ([], 0, 0)

/-- The innermost IPv6 map `Map<u8, ()>`. -/
abbrev InnerMap := List (Nat × RateLimitedGroup Unit)

/-- The middle IPv6 map `Map<u8, Map<u8, ()>>`. -/
abbrev MidMap := List (Nat × RateLimitedGroup InnerMap)

/-- The outer IPv6 map `Map<[u8; 6], Map<u8, Map<u8, ()>>>`. -/
abbrev OuterMap := List (List Nat × RateLimitedGroup MidMap)

instance : DecidableEq (RateLimitedGroup Unit) := inferInstance

instance : DecidableEq InnerMap := inferInstance

instance : DecidableEq (RateLimitedGroup InnerMap) := inferInstance

instance : DecidableEq MidMap := inferInstance

instance : DecidableEq (RateLimitedGroup MidMap) := inferInstance

instance : DecidableEq OuterMap := inferInstance

/-- `RateLimitStorage` (rate_limiter.rs:136-148). -/
structure RateLimitStorage where
  ipv4_buckets : List (Ipv4Addr × RateLimitedGroup Unit)
  ipv6_buckets : OuterMap
  bucket_configs : EnumMap BucketConfig
deriving DecidableEq

/-- `RateLimitStorage::new` (rate_limiter.rs:151-157). -/
def RateLimitStorage.new (bucket_configs : EnumMap BucketConfig) : RateLimitStorage :=
  { ipv4_buckets := [], ipv6_buckets := [], bucket_configs := bucket_configs }

/-- `RateLimitStorage::check` (rate_limiter.rs:162-210).  `entry().or_insert`
followed by in-place mutation of the entry is modelled as a defaulted lookup
followed by `mapInsert` of the mutated value; `result &= ...` never
short-circuits, so all three IPv6 levels are checked unconditionally. -/
def RateLimitStorage.check (self : RateLimitStorage) (type_ : ActionType)
    (ip : IpAddr) (now : InstantSecs) : Bool × RateLimitStorage :=
  let config := self.bucket_configs.get type_
  match ip with
  | .V4 ipv4 =>
    let group := (mapLookup self.ipv4_buckets ipv4).getD
      (RateLimitedGroup.new now self.bucket_configs ())
    let r := group.check_total type_ now config
    (r.1, { self with ipv4_buckets := mapInsert self.ipv4_buckets ipv4 r.2 })
  | .V6 ipv6 =>
    let keys := split_ipv6 ipv6
    let group_48 := (mapLookup self.ipv6_buckets keys.1).getD
      (RateLimitedGroup.new now self.bucket_configs [])
    let r48 := group_48.check_total type_ now (config.multiply_capacity 16)
    let group_56 := (mapLookup r48.2.children keys.2.1).getD
      (RateLimitedGroup.new now self.bucket_configs [])
    let r56 := group_56.check_total type_ now (config.multiply_capacity 4)
    let group_64 := (mapLookup r56.2.children keys.2.2).getD
      (RateLimitedGroup.new now self.bucket_configs ())
    let r64 := group_64.check_total type_ now config
    let group_56a := { r56.2 with children := mapInsert r56.2.children keys.2.2 r64.2 }
    let group_48a := { r48.2 with children := mapInsert r48.2.children keys.2.1 group_56a }
    (r48.1 && r56.1 && r64.1,
     { self with ipv6_buckets := mapInsert self.ipv6_buckets keys.1 group_48a })

/-- The `has_refill_in_future` closure (rate_limiter.rs:214-220): note the
source uses `iter().all(..)`, so it is `true` only when EVERY action type's
updated bucket is away from capacity. -/
def has_refill_in_future (bucket_configs : EnumMap BucketConfig) (now : InstantSecs)
    (buckets : EnumMap Bucket) : Bool :=
  ActionType.all.all fun type_ =>
    let config := bucket_configs.get type_
    ((buckets.get type_).update now config).tokens != config.capacity

/-- The innermost `retain_and_shrink` of `remove_full_buckets`
(rate_limiter.rs:228-230): keep the /64 groups whose buckets are not all full. -/
def retain_64 (bucket_configs : EnumMap BucketConfig) (now : InstantSecs)
    (children : InnerMap) : InnerMap :=
  children.filter fun kv64 => has_refill_in_future bucket_configs now kv64.2.total

/-- The /56-level retention step of `remove_full_buckets`
(rate_limiter.rs:227-232): prune the /64 children, then keep the /56 group if
it has surviving children or its own buckets are not all full (returning the
group with its pruned children, as `retain`'s `&mut` closure leaves it). -/
def prune_56 (bucket_configs : EnumMap BucketConfig) (now : InstantSecs)
    (kv56 : Nat × RateLimitedGroup InnerMap) : Option (Nat × RateLimitedGroup InnerMap) :=
  if !(retain_64 bucket_configs now kv56.2.children).isEmpty
      || has_refill_in_future bucket_configs now kv56.2.total then
    some (kv56.1, { kv56.2 with children := retain_64 bucket_configs now kv56.2.children })
  else
    none

/-- The /48-level retention step of `remove_full_buckets`
(rate_limiter.rs:226-234). -/
def prune_48 (bucket_configs : EnumMap BucketConfig) (now : InstantSecs)
    (kv : List Nat × RateLimitedGroup MidMap) : Option (List Nat × RateLimitedGroup MidMap) :=
  if !(kv.2.children.filterMap (prune_56 bucket_configs now)).isEmpty
      || has_refill_in_future bucket_configs now kv.2.total then
    some (kv.1, { kv.2 with children := kv.2.children.filterMap (prune_56 bucket_configs now) })
  else
    none

/-- `RateLimitStorage::remove_full_buckets` (rate_limiter.rs:213-235).
`retain_and_shrink` is `List.filter` (with in-place mutation of retained
values modelled by `List.filterMap`); `shrink_to_fit` has no logical effect. -/
def RateLimitStorage.remove_full_buckets (self : RateLimitStorage)
    (now : InstantSecs) : RateLimitStorage :=
  { self with
      ipv4_buckets := self.ipv4_buckets.filter fun kv =>
        has_refill_in_future self.bucket_configs now kv.2.total
      ipv6_buckets := self.ipv6_buckets.filterMap (prune_48 self.bucket_configs now) }

/-- `RateLimitStorage::set_config` (rate_limiter.rs:237-239). -/
def RateLimitStorage.set_config (self : RateLimitStorage)
    (new_configs : EnumMap BucketConfig) : RateLimitStorage :=
  { self with bucket_configs := new_configs }

/-- Run a sequence of `check` calls for one action type, collecting the
boolean results (used to state whole-trace properties). -/
def run_checks (type_ : ActionType) : RateLimitStorage → List (IpAddr × InstantSecs) → List Bool
  | _, [] => []
  | st, (ip, t) :: rest =>
    let r := st.check type_ ip t
    r.1 :: run_checks type_ r.2 rest

/-!
IP-address text parsing.  `parse_ip` and `get_ip` (mod.rs:238-255) are embedded
from the source; the `FromStr` implementations they call live in the Rust
standard library, so they are modelled here from std's documented grammar:
IPv4 is four decimal octets (1-3 digits, no leading zeros, <= 255); IPv6 is
hex groups of 1-4 digits separated by `:` with at most one `::` and an
optional embedded trailing IPv4; a v4 socket address is `v4:port` and a v6
socket address is `[v6]:port` with a decimal port <= 65535.  Strings are
processed as their character lists (ASCII throughout; Rust's byte-indexed
`get(1..)` coincides with dropping one character on ASCII input). -/

/-- Value of a hexadecimal digit. -/
def hexVal (c : Char) : Option Nat :=
  if c.isDigit then some (c.toNat - 48)
  else if 'a' ≤ c ∧ c ≤ 'f' then some (c.toNat - 87)
  else if 'A' ≤ c ∧ c ≤ 'F' then some (c.toNat - 55)
  else none

/-- One IPv6 group: one to four hex digits. -/
def parseHexGroup (cs : List Char) : Option Nat :=
  if cs.length = 0 ∨ 4 < cs.length then none
  else cs.foldl (fun acc c => acc.bind fun n => (hexVal c).map fun d => n * 16 + d) (some 0)

/-- One IPv4 octet: one to three decimal digits, no leading zero, value <= 255. -/
def parseDecOctet (cs : List Char) : Option Nat :=
  if cs.length = 0 ∨ 3 < cs.length then none
  else if ¬ cs.all Char.isDigit then none
  else match cs with
    | '0' :: _ :: _ => none
    | _ =>
      let n := cs.foldl (fun acc c => acc * 10 + (c.toNat - 48)) 0
      if n ≤ 255 then some n else none

/-- A port number: one or more decimal digits, value <= 65535. -/
def parsePortChars (cs : List Char) : Option Nat :=
  if cs.length = 0 ∨ ¬ cs.all Char.isDigit then none
  else
    let n := cs.foldl (fun acc c => acc * 10 + (c.toNat - 48)) 0
    if n ≤ 65535 then some n else none

/-- Split a character list at every occurrence of `c` (like `str::split`). -/
def splitChar (c : Char) : List Char → List (List Char)
  | [] => [[]]
  | x :: rest =>
    let r := splitChar c rest
    if x = c then [] :: r
    else
      match r with
      | h :: t => (x :: h) :: t
      | [] => [[x]]

/-- Split at the first occurrence of `::`, if any. -/
def splitDoubleColon : List Char → Option (List Char × List Char)
  | ':' :: ':' :: rest => some ([], rest)
  | x :: rest => (splitDoubleColon rest).map fun p => (x :: p.1, p.2)
  | [] => none

/-- IPv4 in dotted-decimal notation. -/
def parseIpv4Chars (cs : List Char) : Option Ipv4Addr :=
  match splitChar '.' cs with
  | [p1, p2, p3, p4] => do
    let a ← parseDecOctet p1
    let b ← parseDecOctet p2
    let c ← parseDecOctet p3
    let d ← parseDecOctet p4
    some ⟨a, b, c, d⟩
  | _ => none

/-- The colon-separated groups of one side of an IPv6 address; the final group
may be an embedded IPv4 address (two 16-bit groups) when `allowV4` is set. -/
def parseGroupSeq (allowV4 : Bool) : List (List Char) → Option (List Nat)
  | [] => some []
  | [p] =>
    if allowV4 ∧ p.contains '.' then
      (parseIpv4Chars p).map fun q => [q.a * 256 + q.b, q.c * 256 + q.d]
    else
      (parseHexGroup p).map fun g => [g]
  | p :: rest => do
    let g ← parseHexGroup p
    let gs ← parseGroupSeq allowV4 rest
    some (g :: gs)

/-- Groups of one side of an IPv6 address (an empty side has no groups). -/
def groupsOfSide (allowV4 : Bool) (cs : List Char) : Option (List Nat) :=
  if cs.isEmpty then some [] else parseGroupSeq allowV4 (splitChar ':' cs)

/-- Assemble exactly eight 16-bit groups into an `Ipv6Addr`. -/
def groupsToIpv6 : List Nat → Option Ipv6Addr
  | [a, b, c, d, e, f, g, h] => some ⟨a, b, c, d, e, f, g, h⟩
  | _ => none

/-- IPv6 textual notation: eight groups, or two group sequences joined by one
`::` that abbreviates the zero groups in between. -/
def parseIpv6Chars (cs : List Char) : Option Ipv6Addr :=
  match splitDoubleColon cs with
  | none => (groupsOfSide true cs).bind groupsToIpv6
  | some (l, r) =>
    if (splitDoubleColon r).isSome then none
    else do
      let gl ← groupsOfSide false l
      let gr ← groupsOfSide true r
      if gl.length + gr.length ≤ 7 then
        groupsToIpv6 (gl ++ List.replicate (8 - gl.length - gr.length) 0 ++ gr)
      else none

/-- `IpAddr::from_str`: IPv4 notation first, then IPv6. -/
def ipFromStr (s : String) : Option IpAddr :=
  match parseIpv4Chars s.data with
  | some v4 => some (.V4 v4)
  | none => (parseIpv6Chars s.data).map .V6

/-- `SocketAddr::from_str`: `v4:port`, else `[v6]:port` (scope ids omitted);
only the IP part is retained since `parse_ip` keeps only `socket.ip()`. -/
def socketFromStr (s : String) : Option IpAddr :=
  match splitChar ':' s.data with
  | [ipPart, portPart] => do
    let v4 ← parseIpv4Chars ipPart
    let _ ← parsePortChars portPart
    some (.V4 v4)
  | _ =>
    match s.data with
    | '[' :: rest =>
      match splitChar ']' rest with
      | [inner, after] =>
        match after with
        | ':' :: portPart => do
          let v6 ← parseIpv6Chars inner
          let _ ← parsePortChars portPart
          some (.V6 v6)
        | _ => none
      | _ => none
    | _ => none

/-- `parse_ip` (mod.rs:245-255).  The first branch fires whenever the string
ends with `]`: the suffix `]` is stripped, `get(1..)` drops the first
character (whatever it is - the source never checks that it is `[`), and the
remainder is handed to `IpAddr::from_str`; `?` propagates `None` when the
string was just `]`. -/
def parse_ip (addr : String) : Option IpAddr :=
  if addr.data.getLast? = some ']' then
    match addr.data.dropLast with
    | [] => none
    | _ :: rest => ipFromStr ⟨rest⟩
  else
    match ipFromStr addr with
    | some ip => some ip
    | none => socketFromStr addr

/-- `get_ip` (mod.rs:238-243): the connection's real IP if present and
parseable, else `127.0.0.1`. -/
def get_ip (realip_remote_addr : Option String) : IpAddr :=
  (realip_remote_addr.bind parse_ip).getD (.V4 ⟨127, 0, 0, 1⟩)

/-- Invariant for the zero-capacity claim: the stored configuration gives
action `ty` capacity 0, and every group at every level of the storage holds
0 tokens in its bucket for `ty`. -/
def zero_tokens_invariant (ty : ActionType) (st : RateLimitStorage) : Prop :=
  (st.bucket_configs.get ty).capacity = 0 ∧
  (∀ kv ∈ st.ipv4_buckets, (kv.2.total.get ty).tokens = 0) ∧
  (∀ kv ∈ st.ipv6_buckets,
    (kv.2.total.get ty).tokens = 0 ∧
    ∀ kv56 ∈ kv.2.children,
      (kv56.2.total.get ty).tokens = 0 ∧
      ∀ kv64 ∈ kv56.2.children, (kv64.2.total.get ty).tokens = 0)

lemma wrap32_eq_self {x : Int} (h1 : -2147483648 ≤ x) (h2 : x ≤ 2147483647) :
    wrap32 x = x := by
  unfold wrap32
  have : (x + 2147483648) % 4294967296 = x + 2147483648 :=
    Int.emod_eq_of_lt (by omega) (by omega)
  omega

lemma wrap32_le (x : Int) : wrap32 x ≤ 2147483647 := by
  unfold wrap32
  have h1 : 0 ≤ (x + 2147483648) % 4294967296 := Int.emod_nonneg _ (by norm_num)
  have h2 : (x + 2147483648) % 4294967296 < 4294967296 := Int.emod_lt_of_pos _ (by norm_num)
  omega

lemma wrap32_ge (x : Int) : -2147483648 ≤ wrap32 x := by
  unfold wrap32
  have h1 : 0 ≤ (x + 2147483648) % 4294967296 := Int.emod_nonneg _ (by norm_num)
  omega

/-- `Bucket.update` with its let-bindings expanded. -/
lemma Bucket.update_def (b : Bucket) (now : InstantSecs) (c : BucketConfig) :
    b.update now c =
      ⟨now, min (wrap32 (b.tokens + wrap32 (Int.tdiv
        (((now.secs - b.last_checked.secs : Nat) : Int) * c.capacity)
        c.secs_to_refill))) c.capacity⟩ :=
  rfl

/-- A bucket coming out of `update` never exceeds `i32::MAX` tokens. -/
lemma update_tokens_le (b : Bucket) (now : InstantSecs) (c : BucketConfig) :
    (b.update now c).tokens ≤ 2147483647 :=
  le_trans (min_le_left _ _) (wrap32_le _)

lemma EnumMap.get_map (f : α → β) (m : EnumMap α) (a : ActionType) :
    (m.map f).get a = f (m.get a) := by
  cases a <;> rfl

lemma EnumMap.get_set_self (m : EnumMap α) (a : ActionType) (v : α) :
    (m.set a v).get a = v := by
  cases a <;> rfl

lemma mapLookup_mem [DecidableEq K] {m : List (K × V)} {k : K} {v : V}
    (h : mapLookup m k = some v) : (k, v) ∈ m := by
  induction m with
  | nil => simp [mapLookup] at h
  | cons kv rest ih =>
    obtain ⟨k1, v1⟩ := kv
    by_cases hk : k1 = k
    · subst hk
      simp [mapLookup] at h
      simp [h]
    · simp [mapLookup, hk] at h
      exact List.mem_cons_of_mem _ (ih h)

lemma mem_mapInsert [DecidableEq K] {m : List (K × V)} {k : K} {v : V} {x : K × V}
    (h : x ∈ mapInsert m k v) : x = (k, v) ∨ x ∈ m := by
  induction m with
  | nil => simpa [mapInsert] using h
  | cons kv rest ih =>
    obtain ⟨k1, v1⟩ := kv
    by_cases hk : k1 = k
    · subst hk
      simp [mapInsert] at h
      rcases h with h | h
      · exact Or.inl (by simp [h])
      · exact Or.inr (List.mem_cons_of_mem _ h)
    · simp [mapInsert, hk] at h
      rcases h with h | h
      · exact Or.inr (List.mem_cons.mpr (Or.inl h))
      · rcases ih h with h1 | h1
        · exact Or.inl h1
        · exact Or.inr (List.mem_cons_of_mem _ h1)

/-- C7: `set_config` replaces only the `bucket_configs` mapping; the
`ipv4_buckets` and `ipv6_buckets` maps (hence every stored bucket's `tokens`
and `last_checked`) are left exactly unchanged. -/
theorem c7_set_config_frame (st : RateLimitStorage) (cfgs : EnumMap BucketConfig) :
    (st.set_config cfgs).ipv4_buckets = st.ipv4_buckets ∧
    (st.set_config cfgs).ipv6_buckets = st.ipv6_buckets ∧
    (st.set_config cfgs).bucket_configs = cfgs :=
  ⟨rfl, rfl, rfl⟩

/-- C9: the `ActionType` enumeration as declared in rate_limiter.rs is closed
with exactly SIX variants (Message, Register, Post, Image, Comment, Search) -
there is no user-settings-import variant - and the fixed-size `EnumMap` has
exactly one addressable slot per variant.  This contradicts the claim's seven
categories and the `From<RateLimitConfig>` impl in mod.rs, which references a
nonexistent `ActionType::ImportUserSettings`. -/
theorem c9_action_type_has_six_variants :
    ActionType.all.length = 6 ∧
    ActionType.all.Nodup ∧
    (∀ a : ActionType, a ∈ ActionType.all) ∧
    (∀ (m : EnumMap BucketConfig) (a : ActionType) (v : BucketConfig),
      (m.set a v).get a = v) :=
  ⟨rfl, by decide, fun a => by cases a <;> decide, fun m a v => by cases a <;> rfl⟩

/-- C4: `check_total` computes `new_bucket = update(bucket, now, config)`; when
`new_bucket.tokens = 0` it returns `false` with the group exactly unchanged
(so an immediately repeated check is rejected identically), and when
`new_bucket.tokens > 0` it returns `true` and stores `new_bucket` with exactly
one token deducted. -/
theorem c4_check_total {C : Type} (g : RateLimitedGroup C) (ty : ActionType)
    (now : InstantSecs) (cfg : BucketConfig) :
    (((g.total.get ty).update now cfg).tokens = 0 →
      g.check_total ty now cfg = (false, g) ∧
      (g.check_total ty now cfg).2.check_total ty now cfg = (false, g)) ∧
    (0 < ((g.total.get ty).update now cfg).tokens →
      g.check_total ty now cfg =
        (true,
          { g with
              total :=
                g.total.set ty
                  ({ (g.total.get ty).update now cfg with
                      tokens := ((g.total.get ty).update now cfg).tokens - 1 }) })) := by
  constructor
  · intro h
    have h1 : g.check_total ty now cfg = (false, g) := by
      unfold RateLimitedGroup.check_total
      simp [h]
    exact ⟨h1, by rw [h1]; exact h1⟩
  · intro h
    have hne : ((g.total.get ty).update now cfg).tokens ≠ 0 := by omega
    have hle : ((g.total.get ty).update now cfg).tokens ≤ 2147483647 :=
      update_tokens_le _ _ _
    have hw : wrap32 (((g.total.get ty).update now cfg).tokens - 1) =
        ((g.total.get ty).update now cfg).tokens - 1 :=
      wrap32_eq_self (by omega) (by omega)
    unfold RateLimitedGroup.check_total
    simp [hne, hw]

/-- C5: for an IPv6 address, `check` is the logical AND of three `check_total`
results - on the /48 group with capacity multiplied by 16, on the /56 group
with capacity multiplied by 4, and on the /64 group with the unscaled config -
`secs_to_refill` is never scaled, and the resulting state contains all three
levels' `check_total` updates unconditionally (`result &= ...` does not
short-circuit), even when an earlier level returned `false`. -/
theorem c5_ipv6_and_no_short_circuit (st : RateLimitStorage) (ty : ActionType)
    (ip : Ipv6Addr) (now : InstantSecs) :
    (let config := st.bucket_configs.get ty
     let keys := split_ipv6 ip
     let p48 := ((mapLookup st.ipv6_buckets keys.1).getD
       (RateLimitedGroup.new now st.bucket_configs [])).check_total ty now
       (config.multiply_capacity 16)
     let p56 := ((mapLookup p48.2.children keys.2.1).getD
       (RateLimitedGroup.new now st.bucket_configs [])).check_total ty now
       (config.multiply_capacity 4)
     let p64 := ((mapLookup p56.2.children keys.2.2).getD
       (RateLimitedGroup.new now st.bucket_configs ())).check_total ty now config
     st.check ty (.V6 ip) now =
       (p48.1 && p56.1 && p64.1,
        { st with
            ipv6_buckets :=
              mapInsert st.ipv6_buckets keys.1
                ({ p48.2 with
                    children :=
                      mapInsert p48.2.children keys.2.1
                        ({ p56.2 with
                            children :=
                              mapInsert p56.2.children keys.2.2 p64.2 }) }) })) ∧
    (∀ cfg : BucketConfig,
      (cfg.multiply_capacity 16).secs_to_refill = cfg.secs_to_refill ∧
      (cfg.multiply_capacity 4).secs_to_refill = cfg.secs_to_refill) :=
  ⟨rfl, fun _ => ⟨rfl, rfl⟩⟩

/-- C3 (amended): with `secs_to_refill > 0`, a nonnegative capacity, a
nonnegative entering token count, and the refilled total
`tokens + floor(elapsed * capacity / secs_to_refill)` within `i32::MAX`
(so that the `as i32` truncation and the wrapping addition are lossless),
`update` returns `last_checked = now` and
`tokens = min(capacity, tokens + floor(elapsed * capacity / secs_to_refill))`
with `elapsed` the saturating difference of seconds; and if additionally
`tokens <= capacity` on entry then `0 <= tokens' <= capacity`. -/
theorem c3_update (b : Bucket) (c : BucketConfig) (now : InstantSecs)
    (hsecs : 0 < c.secs_to_refill) (hcap : 0 ≤ c.capacity) (ht : 0 ≤ b.tokens)
    (hbound : b.tokens + ((now.secs - b.last_checked.secs : Nat) : Int) * c.capacity
      / c.secs_to_refill ≤ 2147483647) :
    (b.update now c).last_checked = now ∧
    (b.update now c).tokens =
      min c.capacity
        (b.tokens + ((now.secs - b.last_checked.secs : Nat) : Int) * c.capacity
          / c.secs_to_refill) ∧
    (b.tokens ≤ c.capacity →
      0 ≤ (b.update now c).tokens ∧ (b.update now c).tokens ≤ c.capacity) := by
  have he : (0 : Int) ≤ ((now.secs - b.last_checked.secs : Nat) : Int) :=
    Int.natCast_nonneg _
  have hnum : (0 : Int) ≤ ((now.secs - b.last_checked.secs : Nat) : Int) * c.capacity :=
    mul_nonneg he hcap
  have htd : Int.tdiv (((now.secs - b.last_checked.secs : Nat) : Int) * c.capacity)
      c.secs_to_refill =
      ((now.secs - b.last_checked.secs : Nat) : Int) * c.capacity / c.secs_to_refill :=
    Int.tdiv_eq_ediv hnum (le_of_lt hsecs)
  have hq0 : (0 : Int) ≤ ((now.secs - b.last_checked.secs : Nat) : Int) * c.capacity
      / c.secs_to_refill := Int.ediv_nonneg hnum (le_of_lt hsecs)
  have hw1 : wrap32 (((now.secs - b.last_checked.secs : Nat) : Int) * c.capacity
      / c.secs_to_refill) =
      ((now.secs - b.last_checked.secs : Nat) : Int) * c.capacity / c.secs_to_refill :=
    wrap32_eq_self (by omega) (by omega)
  have hw2 : wrap32 (b.tokens + ((now.secs - b.last_checked.secs : Nat) : Int) * c.capacity
      / c.secs_to_refill) =
      b.tokens + ((now.secs - b.last_checked.secs : Nat) : Int) * c.capacity
      / c.secs_to_refill :=
    wrap32_eq_self (by omega) (by omega)
  rw [Bucket.update_def, htd, hw1, hw2]
  refine ⟨rfl, by dsimp only; omega, fun hle => by dsimp only; constructor <;> omega⟩

/-- C3 counterexample: for capacity `2^30`, refill interval 1 and six elapsed
seconds, the 64-bit added-token count `6 * 2^30` truncates (`as i32`) to
`i32::MIN`, so `update` returns `-2147483648` tokens: not the claimed
`min(capacity, tokens + floor(elapsed * capacity / secs_to_refill))`, and
negative even though `0 <= tokens <= capacity` held on entry. -/
theorem c3_counterexample :
    (0 : Int) < (1073741824 : Int) ∧
    (Bucket.update ⟨⟨0⟩, 0⟩ ⟨6⟩ ⟨1073741824, 1⟩).last_checked = ⟨6⟩ ∧
    (Bucket.update ⟨⟨0⟩, 0⟩ ⟨6⟩ ⟨1073741824, 1⟩).tokens = -2147483648 ∧
    (Bucket.update ⟨⟨0⟩, 0⟩ ⟨6⟩ ⟨1073741824, 1⟩).tokens ≠
      min (1073741824 : Int) (0 + ((6 : Nat) : Int) * 1073741824 / 1) ∧
    ¬ (0 ≤ (Bucket.update ⟨⟨0⟩, 0⟩ ⟨6⟩ ⟨1073741824, 1⟩).tokens) := by
  decide

/-- Witness for C3: a concrete in-range instance of the amended update law. -/
theorem c3_update_witness :
    (Bucket.update ⟨⟨10⟩, 1⟩ ⟨13⟩ ⟨2, 1⟩).last_checked = ⟨13⟩ ∧
    (Bucket.update ⟨⟨10⟩, 1⟩ ⟨13⟩ ⟨2, 1⟩).tokens =
      min (2 : Int)
        (1 + (((⟨13⟩ : InstantSecs).secs - (⟨10⟩ : InstantSecs).secs : Nat) : Int) * 2 / 1) ∧
    ((1 : Int) ≤ 2 →
      0 ≤ (Bucket.update ⟨⟨10⟩, 1⟩ ⟨13⟩ ⟨2, 1⟩).tokens ∧
      (Bucket.update ⟨⟨10⟩, 1⟩ ⟨13⟩ ⟨2, 1⟩).tokens ≤ 2) :=
  c3_update ⟨⟨10⟩, 1⟩ ⟨2, 1⟩ ⟨13⟩ (by decide) (by decide) (by decide) (by decide)

/-- C1: the code seeds newly created bucket groups at the UNSCALED configured
capacity at every level (the `TODO: multiply starting capacity for groups` at
rate_limiter.rs:93), not at the claimed 16x//4x scaled capacity.  First
conjunct: a fresh group's bucket always starts at exactly `config.capacity`
tokens.  Remaining conjuncts replay the repository's own `test_rate_limiter`
scenario (capacity 2, refill 1s, Message checks for `1:2:3::`,
`1:2:3:0400::`, `1:2:3:0405::` at one instant): the third check fails because
the shared /48 group started with only 2 tokens, and after the first check
the /48 Message bucket holds 1 token, not the 31 the test (and the claim's
16x seeding) would give. -/
theorem c1_unscaled_group_seed :
    (∀ (now : InstantSecs) (cfgs : EnumMap BucketConfig) (a : ActionType),
      ((RateLimitedGroup.new now cfgs ()).total.get a).tokens = (cfgs.get a).capacity) ∧
    run_checks .Message (RateLimitStorage.new (EnumMap.const ⟨2, 1⟩))
      [(.V6 ⟨1, 2, 3, 0, 0, 0, 0, 0⟩, ⟨7⟩), (.V6 ⟨1, 2, 3, 1024, 0, 0, 0, 0⟩, ⟨7⟩),
       (.V6 ⟨1, 2, 3, 1029, 0, 0, 0, 0⟩, ⟨7⟩)] = [true, true, false] ∧
    (mapLookup (((RateLimitStorage.new (EnumMap.const ⟨2, 1⟩)).check .Message
        (.V6 ⟨1, 2, 3, 0, 0, 0, 0, 0⟩) ⟨7⟩).2).ipv6_buckets
      [0, 1, 0, 2, 0, 3]).map (fun g => (g.total.get .Message).tokens) = some 1 ∧
    (1 : Int) ≠ 16 * 2 - 1 := by
  refine ⟨fun now cfgs a => ?_, by decide, by decide, by decide⟩
  cases a <;> rfl

/-- C2: `has_refill_in_future` uses `iter().all(..)`, so `remove_full_buckets`
retains a group only when EVERY action-type bucket is below capacity, not
when at least one is.  Concretely: after a single successful Message check
(capacity 2) the group's updated Message bucket holds 1 token (below
capacity) while every other action's bucket is at capacity; the claim says
the group is retained, but the code removes it. -/
theorem c2_gc_removes_group_with_nonfull_bucket :
    (mapLookup (((RateLimitStorage.new (EnumMap.const ⟨2, 1⟩)).check .Message
        (.V4 ⟨9, 9, 9, 9⟩) ⟨5⟩).2).ipv4_buckets ⟨9, 9, 9, 9⟩).map
      (fun g => ((g.total.get .Message).update ⟨5⟩ ⟨2, 1⟩).tokens) = some 1 ∧
    (mapLookup (((RateLimitStorage.new (EnumMap.const ⟨2, 1⟩)).check .Message
        (.V4 ⟨9, 9, 9, 9⟩) ⟨5⟩).2).ipv4_buckets ⟨9, 9, 9, 9⟩).map
      (fun g => ((g.total.get .Post).update ⟨5⟩ ⟨2, 1⟩).tokens) = some 2 ∧
    (1 : Int) ≠ 2 ∧
    ((((RateLimitStorage.new (EnumMap.const ⟨2, 1⟩)).check .Message
        (.V4 ⟨9, 9, 9, 9⟩) ⟨5⟩).2).remove_full_buckets ⟨5⟩).ipv4_buckets = [] := by
  decide

lemma has_refill_in_future_eq_false (cfgs : EnumMap BucketConfig) (now : InstantSecs)
    (bk : EnumMap Bucket)
    (h : ∀ a : ActionType,
      ((bk.get a).update now (cfgs.get a)).tokens = (cfgs.get a).capacity) :
    has_refill_in_future cfgs now bk = false := by
  apply List.all_eq_false.mpr
  refine ⟨.Message, by simp [ActionType.all], ?_⟩
  simp [h ActionType.Message]

lemma retain_64_eq_nil (cfgs : EnumMap BucketConfig) (now : InstantSecs)
    (children : InnerMap)
    (h : ∀ kv64 ∈ children, ∀ a : ActionType,
      ((kv64.2.total.get a).update now (cfgs.get a)).tokens = (cfgs.get a).capacity) :
    retain_64 cfgs now children = [] := by
  apply List.filter_eq_nil_iff.mpr
  intro kv64 hm
  simp [has_refill_in_future_eq_false cfgs now _ (h kv64 hm)]

lemma prune_56_eq_none (cfgs : EnumMap BucketConfig) (now : InstantSecs)
    (kv56 : Nat × RateLimitedGroup InnerMap)
    (h56 : ∀ a : ActionType,
      ((kv56.2.total.get a).update now (cfgs.get a)).tokens = (cfgs.get a).capacity)
    (h64 : ∀ kv64 ∈ kv56.2.children, ∀ a : ActionType,
      ((kv64.2.total.get a).update now (cfgs.get a)).tokens = (cfgs.get a).capacity) :
    prune_56 cfgs now kv56 = none := by
  unfold prune_56
  rw [retain_64_eq_nil cfgs now _ h64, has_refill_in_future_eq_false cfgs now _ h56]
  rfl

lemma prune_48_eq_none (cfgs : EnumMap BucketConfig) (now : InstantSecs)
    (kv : List Nat × RateLimitedGroup MidMap)
    (h48 : ∀ a : ActionType,
      ((kv.2.total.get a).update now (cfgs.get a)).tokens = (cfgs.get a).capacity)
    (h56 : ∀ kv56 ∈ kv.2.children,
      (∀ a : ActionType,
        ((kv56.2.total.get a).update now (cfgs.get a)).tokens = (cfgs.get a).capacity) ∧
      ∀ kv64 ∈ kv56.2.children, ∀ a : ActionType,
        ((kv64.2.total.get a).update now (cfgs.get a)).tokens = (cfgs.get a).capacity) :
    prune_48 cfgs now kv = none := by
  unfold prune_48
  have hnil : kv.2.children.filterMap (prune_56 cfgs now) = [] := by
    apply List.filterMap_eq_nil_iff.mpr
    intro kv56 hm
    exact prune_56_eq_none cfgs now kv56 (h56 kv56 hm).1 (h56 kv56 hm).2
  rw [hnil, has_refill_in_future_eq_false cfgs now _ h48]
  rfl

/-- C6: if every bucket stored anywhere in the storage would sit at its
configured capacity when updated to `now`, then `remove_full_buckets now`
leaves both the `ipv4_buckets` map and the `ipv6_buckets` map empty. -/
theorem c6_gc_empties (st : RateLimitStorage) (now : InstantSecs)
    (h4 : ∀ kv ∈ st.ipv4_buckets, ∀ a : ActionType,
      ((kv.2.total.get a).update now (st.bucket_configs.get a)).tokens =
        (st.bucket_configs.get a).capacity)
    (h6 : ∀ kv ∈ st.ipv6_buckets,
      (∀ a : ActionType,
        ((kv.2.total.get a).update now (st.bucket_configs.get a)).tokens =
          (st.bucket_configs.get a).capacity) ∧
      ∀ kv56 ∈ kv.2.children,
        (∀ a : ActionType,
          ((kv56.2.total.get a).update now (st.bucket_configs.get a)).tokens =
            (st.bucket_configs.get a).capacity) ∧
        ∀ kv64 ∈ kv56.2.children, ∀ a : ActionType,
          ((kv64.2.total.get a).update now (st.bucket_configs.get a)).tokens =
            (st.bucket_configs.get a).capacity) :
    (st.remove_full_buckets now).ipv4_buckets = [] ∧
    (st.remove_full_buckets now).ipv6_buckets = [] := by
  constructor
  · show st.ipv4_buckets.filter _ = []
    apply List.filter_eq_nil_iff.mpr
    intro kv hm
    simp [has_refill_in_future_eq_false st.bucket_configs now _ (h4 kv hm)]
  · show st.ipv6_buckets.filterMap _ = []
    apply List.filterMap_eq_nil_iff.mpr
    intro kv hm
    exact prune_48_eq_none st.bucket_configs now kv (h6 kv hm).1 (h6 kv hm).2

/-- Witness for C6: a storage built by one IPv4 and one IPv6 check at time 0
(capacity 2, refill interval 1s); at time 2 every bucket refills to capacity,
and garbage collection empties both maps. -/
theorem c6_gc_empties_witness :
    (let st := (((RateLimitStorage.new (EnumMap.const ⟨2, 1⟩)).check .Message
      (.V4 ⟨1, 2, 3, 4⟩) ⟨0⟩).2.check .Post (.V6 ⟨1, 2, 3, 4, 5, 6, 7, 8⟩) ⟨0⟩).2
     (st.remove_full_buckets ⟨2⟩).ipv4_buckets = [] ∧
     (st.remove_full_buckets ⟨2⟩).ipv6_buckets = []) :=
  c6_gc_empties _ ⟨2⟩ (by decide) (by decide)

lemma multiply_capacity_zero (c : BucketConfig) (h : c.capacity = 0) (k : Int) :
    (c.multiply_capacity k).capacity = 0 := by
  simp only [BucketConfig.multiply_capacity, h, zero_mul]
  decide

lemma new_group_bucket {C : Type} (now : InstantSecs) (cfgs : EnumMap BucketConfig)
    (d : C) (a : ActionType) :
    (RateLimitedGroup.new now cfgs d).total.get a = ⟨now, (cfgs.get a).capacity⟩ := by
  cases a <;> rfl

/-- With a zero-capacity config, a bucket holding zero tokens stays at zero
after updating, so `check_total` rejects and leaves the group untouched. -/
lemma check_total_zero {C : Type} (g : RateLimitedGroup C) (ty : ActionType)
    (now : InstantSecs) (cfg : BucketConfig) (hcap : cfg.capacity = 0)
    (hz : (g.total.get ty).tokens = 0) :
    g.check_total ty now cfg = (false, g) := by
  have w0 : wrap32 0 = 0 := by decide
  have hupd : (g.total.get ty).update now cfg = ⟨now, 0⟩ := by
    rw [Bucket.update_def, hcap, hz]
    simp [Int.zero_tdiv, w0]
  unfold RateLimitedGroup.check_total
  simp [hupd]

/-- One `check` under a zero-capacity config: it rejects, preserves the
all-zero invariant, and leaves the configuration untouched. -/
lemma check_zero_step (st : RateLimitStorage) (ty : ActionType) (ip : IpAddr)
    (now : InstantSecs) (hinv : zero_tokens_invariant ty st) :
    (st.check ty ip now).1 = false ∧
    zero_tokens_invariant ty (st.check ty ip now).2 := by
  obtain ⟨hcap, h4, h6⟩ := hinv
  cases ip with
  | V4 ipv4 =>
    have hz : (((mapLookup st.ipv4_buckets ipv4).getD
        (RateLimitedGroup.new now st.bucket_configs ())).total.get ty).tokens = 0 := by
      cases hm : mapLookup st.ipv4_buckets ipv4 with
      | none => simp [new_group_bucket, hcap]
      | some g => simpa using h4 (ipv4, g) (mapLookup_mem hm)
    have hct := check_total_zero ((mapLookup st.ipv4_buckets ipv4).getD
      (RateLimitedGroup.new now st.bucket_configs ())) ty now
      (st.bucket_configs.get ty) hcap hz
    have hcta : (((mapLookup st.ipv4_buckets ipv4).getD
        (RateLimitedGroup.new now st.bucket_configs ())).check_total ty now
        (st.bucket_configs.get ty)).1 = false := by rw [hct]
    have hctb : (((mapLookup st.ipv4_buckets ipv4).getD
        (RateLimitedGroup.new now st.bucket_configs ())).check_total ty now
        (st.bucket_configs.get ty)).2 =
        (mapLookup st.ipv4_buckets ipv4).getD
          (RateLimitedGroup.new now st.bucket_configs ()) := by rw [hct]
    simp only [RateLimitStorage.check]
    rw [hcta, hctb]
    refine ⟨rfl, hcap, ?_, h6⟩
    intro kv hkv
    rcases mem_mapInsert hkv with h | h
    · rw [h]
      exact hz
    · exact h4 kv h
  | V6 ipv6 =>
    have hz48 : (((mapLookup st.ipv6_buckets (split_ipv6 ipv6).1).getD
        (RateLimitedGroup.new now st.bucket_configs [])).total.get ty).tokens = 0 := by
      cases hm : mapLookup st.ipv6_buckets (split_ipv6 ipv6).1 with
      | none => simp [new_group_bucket, hcap]
      | some g => simpa using (h6 _ (mapLookup_mem hm)).1
    have h48c : ∀ kv56 ∈ ((mapLookup st.ipv6_buckets (split_ipv6 ipv6).1).getD
        (RateLimitedGroup.new now st.bucket_configs [])).children,
        (kv56.2.total.get ty).tokens = 0 ∧
        ∀ kv64 ∈ kv56.2.children, (kv64.2.total.get ty).tokens = 0 := by
      cases hm : mapLookup st.ipv6_buckets (split_ipv6 ipv6).1 with
      | none => simp [RateLimitedGroup.new]
      | some g => simpa using (h6 _ (mapLookup_mem hm)).2
    have hct48 := check_total_zero ((mapLookup st.ipv6_buckets (split_ipv6 ipv6).1).getD
      (RateLimitedGroup.new now st.bucket_configs [])) ty now
      ((st.bucket_configs.get ty).multiply_capacity 16)
      (multiply_capacity_zero _ hcap 16) hz48
    have hct48a : (((mapLookup st.ipv6_buckets (split_ipv6 ipv6).1).getD
        (RateLimitedGroup.new now st.bucket_configs [])).check_total ty now
        ((st.bucket_configs.get ty).multiply_capacity 16)).1 = false := by rw [hct48]
    have hct48b : (((mapLookup st.ipv6_buckets (split_ipv6 ipv6).1).getD
        (RateLimitedGroup.new now st.bucket_configs [])).check_total ty now
        ((st.bucket_configs.get ty).multiply_capacity 16)).2 =
        (mapLookup st.ipv6_buckets (split_ipv6 ipv6).1).getD
          (RateLimitedGroup.new now st.bucket_configs []) := by rw [hct48]
    simp only [RateLimitStorage.check]
    rw [hct48a, hct48b]
    have hz56 : (((mapLookup ((mapLookup st.ipv6_buckets (split_ipv6 ipv6).1).getD
        (RateLimitedGroup.new now st.bucket_configs [])).children
        (split_ipv6 ipv6).2.1).getD
        (RateLimitedGroup.new now st.bucket_configs [])).total.get ty).tokens = 0 := by
      cases hm : mapLookup ((mapLookup st.ipv6_buckets (split_ipv6 ipv6).1).getD
          (RateLimitedGroup.new now st.bucket_configs [])).children
          (split_ipv6 ipv6).2.1 with
      | none => simp [new_group_bucket, hcap]
      | some g => simpa using (h48c _ (mapLookup_mem hm)).1
    have h56c : ∀ kv64 ∈ ((mapLookup ((mapLookup st.ipv6_buckets (split_ipv6 ipv6).1).getD
        (RateLimitedGroup.new now st.bucket_configs [])).children
        (split_ipv6 ipv6).2.1).getD
        (RateLimitedGroup.new now st.bucket_configs [])).children,
        (kv64.2.total.get ty).tokens = 0 := by
      cases hm : mapLookup ((mapLookup st.ipv6_buckets (split_ipv6 ipv6).1).getD
          (RateLimitedGroup.new now st.bucket_configs [])).children
          (split_ipv6 ipv6).2.1 with
      | none => simp [RateLimitedGroup.new]
      | some g => simpa using (h48c _ (mapLookup_mem hm)).2
    have hct56 := check_total_zero ((mapLookup ((mapLookup st.ipv6_buckets
      (split_ipv6 ipv6).1).getD (RateLimitedGroup.new now st.bucket_configs [])).children
      (split_ipv6 ipv6).2.1).getD (RateLimitedGroup.new now st.bucket_configs [])) ty now
      ((st.bucket_configs.get ty).multiply_capacity 4)
      (multiply_capacity_zero _ hcap 4) hz56
    have hct56a : (((mapLookup ((mapLookup st.ipv6_buckets (split_ipv6 ipv6).1).getD
        (RateLimitedGroup.new now st.bucket_configs [])).children
        (split_ipv6 ipv6).2.1).getD
        (RateLimitedGroup.new now st.bucket_configs [])).check_total ty now
        ((st.bucket_configs.get ty).multiply_capacity 4)).1 = false := by rw [hct56]
    have hct56b : (((mapLookup ((mapLookup st.ipv6_buckets (split_ipv6 ipv6).1).getD
        (RateLimitedGroup.new now st.bucket_configs [])).children
        (split_ipv6 ipv6).2.1).getD
        (RateLimitedGroup.new now st.bucket_configs [])).check_total ty now
        ((st.bucket_configs.get ty).multiply_capacity 4)).2 =
        (mapLookup ((mapLookup st.ipv6_buckets (split_ipv6 ipv6).1).getD
          (RateLimitedGroup.new now st.bucket_configs [])).children
          (split_ipv6 ipv6).2.1).getD
          (RateLimitedGroup.new now st.bucket_configs []) := by rw [hct56]
    rw [hct56a, hct56b]
    have hz64 : (((mapLookup ((mapLookup ((mapLookup st.ipv6_buckets
        (split_ipv6 ipv6).1).getD (RateLimitedGroup.new now st.bucket_configs [])).children
        (split_ipv6 ipv6).2.1).getD (RateLimitedGroup.new now st.bucket_configs [])).children
        (split_ipv6 ipv6).2.2).getD
        (RateLimitedGroup.new now st.bucket_configs ())).total.get ty).tokens = 0 := by
      cases hm : mapLookup ((mapLookup ((mapLookup st.ipv6_buckets
          (split_ipv6 ipv6).1).getD (RateLimitedGroup.new now st.bucket_configs [])).children
          (split_ipv6 ipv6).2.1).getD (RateLimitedGroup.new now st.bucket_configs [])).children
          (split_ipv6 ipv6).2.2 with
      | none => simp [new_group_bucket, hcap]
      | some g => simpa using h56c _ (mapLookup_mem hm)
    have hct64 := check_total_zero ((mapLookup ((mapLookup ((mapLookup st.ipv6_buckets
      (split_ipv6 ipv6).1).getD (RateLimitedGroup.new now st.bucket_configs [])).children
      (split_ipv6 ipv6).2.1).getD (RateLimitedGroup.new now st.bucket_configs [])).children
      (split_ipv6 ipv6).2.2).getD (RateLimitedGroup.new now st.bucket_configs ())) ty now
      (st.bucket_configs.get ty) hcap hz64
    have hct64a : (((mapLookup ((mapLookup ((mapLookup st.ipv6_buckets
        (split_ipv6 ipv6).1).getD (RateLimitedGroup.new now st.bucket_configs [])).children
        (split_ipv6 ipv6).2.1).getD (RateLimitedGroup.new now st.bucket_configs [])).children
        (split_ipv6 ipv6).2.2).getD
        (RateLimitedGroup.new now st.bucket_configs ())).check_total ty now
        (st.bucket_configs.get ty)).1 = false := by rw [hct64]
    have hct64b : (((mapLookup ((mapLookup ((mapLookup st.ipv6_buckets
        (split_ipv6 ipv6).1).getD (RateLimitedGroup.new now st.bucket_configs [])).children
        (split_ipv6 ipv6).2.1).getD (RateLimitedGroup.new now st.bucket_configs [])).children
        (split_ipv6 ipv6).2.2).getD
        (RateLimitedGroup.new now st.bucket_configs ())).check_total ty now
        (st.bucket_configs.get ty)).2 =
        (mapLookup ((mapLookup ((mapLookup st.ipv6_buckets
          (split_ipv6 ipv6).1).getD (RateLimitedGroup.new now st.bucket_configs [])).children
          (split_ipv6 ipv6).2.1).getD (RateLimitedGroup.new now st.bucket_configs [])).children
          (split_ipv6 ipv6).2.2).getD
          (RateLimitedGroup.new now st.bucket_configs ()) := by rw [hct64]
    rw [hct64a, hct64b]
    refine ⟨rfl, hcap, h4, ?_⟩
    intro kv hkv
    rcases mem_mapInsert hkv with h | h
    · rw [h]
      refine ⟨hz48, ?_⟩
      intro kv56 hkv56
      rcases mem_mapInsert hkv56 with h2 | h2
      · rw [h2]
        refine ⟨hz56, ?_⟩
        intro kv64 hkv64
        rcases mem_mapInsert hkv64 with h3 | h3
        · rw [h3]
          exact hz64
        · exact h56c _ h3
      · exact h48c _ h2
    · exact h6 kv h

lemma run_checks_zero (ty : ActionType) (l : List (IpAddr × InstantSecs)) :
    ∀ st : RateLimitStorage, zero_tokens_invariant ty st →
      run_checks ty st l = List.replicate l.length false := by
  induction l with
  | nil => intro st _; rfl
  | cons p rest ih =>
    intro st hinv
    obtain ⟨ip, t⟩ := p
    obtain ⟨h1, h2⟩ := check_zero_step st ty ip t hinv
    simp [run_checks, h1, ih _ h2, List.replicate]

/-- C10: if the configuration gives some action type capacity 0 (with a
positive refill interval), then starting from a fresh storage every `check`
for that action type is rejected, for every IP (v4 or v6) and every sequence
of query times: fresh groups seed that action's bucket at 0 tokens, `update`
adds `floor(elapsed * 0 / secs_to_refill) = 0` tokens, and `check_total`
rejects at 0 tokens (the 16x and 4x IPv6 scalings of 0 are still 0). -/
theorem c10_zero_capacity (cfgs : EnumMap BucketConfig) (ty : ActionType)
    (hcap : (cfgs.get ty).capacity = 0) (hsecs : 0 < (cfgs.get ty).secs_to_refill)
    (l : List (IpAddr × InstantSecs)) :
    run_checks ty (RateLimitStorage.new cfgs) l = List.replicate l.length false := by
  apply run_checks_zero
  refine ⟨hcap, ?_, ?_⟩ <;> intro kv hkv <;> simp [RateLimitStorage.new] at hkv

/-- Witness for C10: Message capacity 0, refill interval 5; three checks
(IPv4, IPv6, and the same IPv4 much later) are all rejected. -/
theorem c10_zero_capacity_witness :
    run_checks .Message
      (RateLimitStorage.new ⟨⟨0, 5⟩, ⟨2, 1⟩, ⟨2, 1⟩, ⟨2, 1⟩, ⟨2, 1⟩, ⟨2, 1⟩⟩)
      [(.V4 ⟨8, 8, 8, 8⟩, ⟨0⟩), (.V6 ⟨1, 2, 3, 4, 5, 6, 7, 8⟩, ⟨100⟩),
       (.V4 ⟨8, 8, 8, 8⟩, ⟨1000⟩)] = List.replicate 3 false :=
  c10_zero_capacity ⟨⟨0, 5⟩, ⟨2, 1⟩, ⟨2, 1⟩, ⟨2, 1⟩, ⟨2, 1⟩, ⟨2, 1⟩⟩ .Message
    (by decide) (by decide) _

/-- C8 counterexample: the string `#2001:db8::]` is none of the five accepted
forms - it is not a plain IP (`IpAddr::from_str` fails), not an IP-with-port
(`SocketAddr::from_str` fails), and not bracketed (it does not start with
`[`) - yet `get_ip` returns `2001:db8::` rather than `127.0.0.1`, because
`parse_ip` strips the trailing `]` and blindly drops the first character
without checking that it is `[`. -/
theorem c8_counterexample :
    ipFromStr ("#2001:db8::]") = none ∧
    socketFromStr ("#2001:db8::]") = none ∧
    ("#2001:db8::]").data.head? = some '#' ∧
    '#' ≠ '[' ∧
    get_ip (some ("#2001:db8::]")) = .V6 ⟨8193, 3512, 0, 0, 0, 0, 0, 0⟩ ∧
    IpAddr.V6 ⟨8193, 3512, 0, 0, 0, 0, 0, 0⟩ ≠ .V4 ⟨127, 0, 0, 1⟩ := by
  decide

/-- C8 (amended): `get_ip` accepts a plain IPv4 address, a dotted IPv4
address with port, a plain IPv6 address, a bracketed IPv6 address, and a
bracketed IPv6 address with port, returning the contained IP; however, any
string ending in `]` is handled by dropping the trailing `]` and the first
character (which is never checked to be `[`) and parsing the remainder, so
some strings of other shapes are accepted as well.  Whenever `parse_ip`
accepts nothing (or no address string is available), `get_ip` returns
`127.0.0.1` instead of propagating an error. -/
theorem c8_get_ip (o : Option String) (s : String) (ip : IpAddr) :
    (o.bind parse_ip = none → get_ip o = .V4 ⟨127, 0, 0, 1⟩) ∧
    (parse_ip s = some ip → get_ip (some s) = ip) ∧
    parse_ip ("1.2.3.4") = some (.V4 ⟨1, 2, 3, 4⟩) ∧
    parse_ip ("1.2.3.4:8000") = some (.V4 ⟨1, 2, 3, 4⟩) ∧
    parse_ip ("2001:db8::") = some (.V6 ⟨8193, 3512, 0, 0, 0, 0, 0, 0⟩) ∧
    parse_ip ("[2001:db8::]") = some (.V6 ⟨8193, 3512, 0, 0, 0, 0, 0, 0⟩) ∧
    parse_ip ("[2001:db8::]:8000") = some (.V6 ⟨8193, 3512, 0, 0, 0, 0, 0, 0⟩) := by
  refine ⟨?_, ?_, by decide, by decide, by decide, by decide, by decide⟩
  · intro h
    simp [get_ip, h]
  · intro h
    simp [get_ip, h]

/-- Witness for C8: the fallback clause at an unparseable string and the
acceptance clause at a plain IPv4 string. -/
theorem c8_get_ip_witness :
    get_ip (some ("not an ip")) = .V4 ⟨127, 0, 0, 1⟩ ∧
    get_ip (some ("1.2.3.4")) = .V4 ⟨1, 2, 3, 4⟩ :=
  ⟨(c8_get_ip (some ("not an ip")) ("") (.V4 ⟨0, 0, 0, 0⟩)).1 (by decide),
   (c8_get_ip (some ("1.2.3.4")) ("1.2.3.4") (.V4 ⟨1, 2, 3, 4⟩)).2.1 (by decide)⟩

/-- Witness for C4: the success clause on a fresh full bucket (capacity 2),
and the rejection clause on a zero-capacity bucket. -/
theorem c4_check_total_witness :
    (let g0 := RateLimitedGroup.new ⟨0⟩ (EnumMap.const ⟨2, 1⟩) ()
     let nb := (g0.total.get .Message).update (⟨0⟩ : InstantSecs) ⟨2, 1⟩
     g0.check_total .Message ⟨0⟩ ⟨2, 1⟩ =
       (true, { g0 with total := g0.total.set .Message ({ nb with tokens := nb.tokens - 1 }) })) ∧
    (let g1 := RateLimitedGroup.new ⟨0⟩ (EnumMap.const ⟨0, 5⟩) ()
     g1.check_total .Message ⟨3⟩ ⟨0, 5⟩ = (false, g1)) :=
  ⟨(c4_check_total (RateLimitedGroup.new ⟨0⟩ (EnumMap.const ⟨2, 1⟩) ())
      .Message ⟨0⟩ ⟨2, 1⟩).2 (by decide),
   ((c4_check_total (RateLimitedGroup.new ⟨0⟩ (EnumMap.const ⟨0, 5⟩) ())
      .Message ⟨3⟩ ⟨0, 5⟩).1 (by decide)).1⟩
